import Mathlib

/-!
Shallow embedding of the telekinesis device-control runtime
(sources: src/plug/src/telekinesis.rs, src/plug/src/lib.rs,
src/rust/bp_scheduler/src/actuator.rs) together with the parts of the
scheduler that the repository only references (priority stack, command
worker, settings store); those are modelled from the specification and
marked as such in their doc comments.
-/

namespace Telek

/-- Actuator kinds, from buttplug's ActuatorType as used by the sources. -/
inductive ActuatorType
  | Vibrate
  | Oscillate
  | Inflate
  | Constrict
  | Position
  | Rotate
  deriving DecidableEq, Repr

/-- Display rendering of an actuator kind (Rust Display impl of ActuatorType). -/
def ActuatorType.str : ActuatorType → String
  | .Vibrate => "Vibrate"
  | .Oscillate => "Oscillate"
  | .Inflate => "Inflate"
  | .Constrict => "Constrict"
  | .Position => "Position"
  | .Rotate => "Rotate"

/-- One scalar-channel capability descriptor: only its actuator type is
consulted by the sources (scalar_cmd attribute's actuator_type). -/
structure ScalarAttr where
  actuator_type : ActuatorType
  deriving DecidableEq, Repr

/-- Shallow embedding of ButtplugClientDevice as the sources consult it:
a device index, a name, and the optional scalar/linear/rotate capability
descriptor lists of its message attributes.  Linear and rotate attributes
carry no data the sources read, so they are represented by Unit entries
(one per declared channel). -/
structure Device where
  index : Nat
  name : String
  scalar_cmd : Option (List ScalarAttr)
  linear_cmd : Option (List Unit)
  rotate_cmd : Option (List Unit)
  deriving DecidableEq, Repr

/-- Embedding of bp_scheduler's Actuator struct (actuator.rs). -/
structure Actuator where
  device : Device
  actuator : ActuatorType
  index_in_device : Nat
  identifier : String
  deriving DecidableEq, Repr

/-- Embedding of Actuator::new (actuator.rs): builds the identifier string
"{device}[{i}].{kind}". -/
def Actuator.new (device : Device) (actuator : ActuatorType)
    (index_in_device : Nat) : Actuator :=
  { device := device
    actuator := actuator
    index_in_device := index_in_device
    identifier :=
      device.name ++ "[" ++ toString index_in_device ++ "]." ++ actuator.str }

/-- Embedding of get_actuators (actuator.rs): per device, one actuator per
scalar channel in index order with the channel's declared kind, then one
Position actuator per linear channel, then one Rotate actuator per rotate
channel. -/
def get_actuators (devices : List Device) : List Actuator :=
  devices.flatMap fun device =>
    (match device.scalar_cmd with
      | some scalars =>
          scalars.enum.map fun p => Actuator.new device p.2.actuator_type p.1
      | none => []) ++
    (match device.linear_cmd with
      | some linears =>
          linears.enum.map fun p => Actuator.new device ActuatorType.Position p.1
      | none => []) ++
    (match device.rotate_cmd with
      | some rotates =>
          rotates.enum.map fun p => Actuator.new device ActuatorType.Rotate p.1
      | none => [])

/-- The claim's reading of get_actuators, written from the spec's words
(section 4.A): for each device in input order, one Actuator per scalar
channel carrying that channel's declared kind in declared index order,
then one Actuator of kind Position per linear channel in index order,
then one of kind Rotate per rotate channel in index order. -/
def actuatorsSpec (devices : List Device) : List Actuator :=
  devices.flatMap fun device =>
    ((device.scalar_cmd.getD []).enum.map fun p =>
        Actuator.new device p.2.actuator_type p.1) ++
    ((device.linear_cmd.getD []).enum.map fun p =>
        Actuator.new device ActuatorType.Position p.1) ++
    ((device.rotate_cmd.getD []).enum.map fun p =>
        Actuator.new device ActuatorType.Rotate p.1)

/-- Whether a device has a scalar channel of kind Vibrate; this is the
predicate get_device_capabilities (telekinesis.rs) evaluates per device. -/
def Device.hasScalarVibrate (d : Device) : Bool :=
  match d.scalar_cmd with
  | some scalar => scalar.any fun a => a.actuator_type == ActuatorType.Vibrate
  | none => false

/-- Embedding of Tk::get_device_capabilities (telekinesis.rs): returns
["Vibrate"] when any live device with the given name has a scalar Vibrate
channel, and the empty list otherwise. -/
def get_device_capabilities (devices : List Device) (name : String) :
    List String :=
  if devices.any fun d => d.name == name && d.hasScalarVibrate then
    [ActuatorType.Vibrate.str]
  else
    []

/-- The claim's reading of get_device_capabilities, written from the spec's
words: the union (here: concatenation, duplicates aside) of the actuator
kinds present on any live device reporting the given name — every scalar
channel's kind, Position per linear channel, Rotate per rotate channel. -/
def capabilitiesSpec (devices : List Device) (name : String) : List String :=
  ((get_actuators (devices.filter fun d => d.name == name)).map
      fun a => a.actuator.str).dedup

/-! ### Priority stack

The priority-stack implementation lives in the repository's commands
module, which is not among the provided sources; it is modelled here from
the specification (section 4.C, with the emit-on-pop policy fixed by
section 8 scenario 4). -/

/-- One priority-stack entry: the owning handle and its current strength
(integer 0..=100, converted to the device float as strength/100). -/
structure StackEntry where
  handle : Int
  strength : Nat
  deriving DecidableEq

/-- Strength of the top entry (most recently pushed = last), if any. -/
def topStrength (st : List StackEntry) : Option Nat :=
  (st.getLast?).map fun e => e.strength

/-- A low-level device command: a scalar strength command or a stop. -/
inductive Emit
  | strength (s : Nat)
  | stop
  deriving DecidableEq

/-- Device-native float carried by an emit: strength/100, none for stop. -/
def Emit.toDevice : Emit → Option ℚ
  | .strength s => some ((s : ℚ) / 100)
  | .stop => none

/-- The device command the worker sends for a given new top of stack:
the new top's strength, or stop when the stack is empty. -/
def emitOf (top : Option Nat) : Emit :=
  match top with
  | some s => Emit.strength s
  | none => Emit.stop

/-- Modelled from the spec: push(handle, initial_strength) appends an entry;
the top changes iff the pushed strength differs from the prior top strength
or the stack was empty (section 4.C; equal strengths deduplicate at emit
time but still stack logically). -/
def stackPush (st : List StackEntry) (handle : Int) (strength : Nat) :
    List StackEntry × Bool :=
  (st ++ [⟨handle, strength⟩], topStrength st != some strength)

/-- Modelled from the spec: update(handle, new_strength) rewrites that
entry's strength and reports a top change iff the entry is on top and the
value changed (section 4.C). -/
def stackUpdate (st : List StackEntry) (handle : Int) (strength : Nat) :
    List StackEntry × Bool :=
  (st.map fun e => if e.handle == handle then ⟨e.handle, strength⟩ else e,
   match st.getLast? with
   | some e => e.handle == handle && e.strength != strength
   | none => false)

/-- Modelled from the spec: pop(handle) removes that handle's entry;
removing a present entry always counts as a top-of-stack change, so the
worker re-emits the remaining top (or stop): section 8 scenario 4 fixes
this policy — popping a middle entry out from under an equal-valued top
still triggers an emit. -/
def stackPop (st : List StackEntry) (handle : Int) :
    List StackEntry × Bool :=
  (st.filter fun e => e.handle != handle, st.any fun e => e.handle == handle)

/-- A stack-affecting scheduler event on one actuator: a Control pushing a
new entry, or a player terminating and popping its entry. -/
inductive StackEvent
  | push (handle : Int) (strength : Nat)
  | pop (handle : Int)
  deriving DecidableEq

/-- One scheduler step on one actuator's stack, returning the device
commands emitted (one iff the operation reported a top change). -/
def stackStep (st : List StackEntry) (ev : StackEvent) :
    List StackEntry × List Emit :=
  match ev with
  | .push h s =>
      let r := stackPush st h s
      (r.1, if r.2 then [emitOf (topStrength r.1)] else [])
  | .pop h =>
      let r := stackPop st h
      (r.1, if r.2 then [emitOf (topStrength r.1)] else [])

/-- Runs a sequence of stack events, collecting all device commands. -/
def runStack (st : List StackEntry) : List StackEvent → List Emit
  | [] => []
  | ev :: rest =>
      let r := stackStep st ev
      r.2 ++ runStack r.1 rest

/-- A Control action against a single actuator, as submitted in the
priority scenarios: submission time (ms), handle, strength (0..=100),
duration (ms). -/
structure ControlSpec where
  time : Nat
  handle : Int
  strength : Nat
  duration : Nat

/-- Inserts a timed event into a time-sorted list, keeping earlier-listed
events first among equal times. -/
def insertByTime (p : Nat × StackEvent) :
    List (Nat × StackEvent) → List (Nat × StackEvent)
  | [] => [p]
  | q :: rest => if p.1 ≤ q.1 then p :: q :: rest else q :: insertByTime p rest

/-- Insertion sort of timed events by time (stable). -/
def sortByTime : List (Nat × StackEvent) → List (Nat × StackEvent)
  | [] => []
  | p :: rest => insertByTime p (sortByTime rest)

/-- The stack-event timeline of a set of Control actions on one actuator:
each Control pushes its entry at its submission time and pops it when its
duration expires, and events apply in time order. -/
def timeline (controls : List ControlSpec) : List StackEvent :=
  (sortByTime (controls.flatMap fun c =>
    [(c.time, StackEvent.push c.handle c.strength),
     (c.time + c.duration, StackEvent.pop c.handle)])).map fun p => p.2

/-- The three Control actions of the priority_4 scenario: strengths
20, 40, 80 at t = 0, 250, 500 ms with durations 3000, 1000, 2000 ms. -/
def priority4Controls : List ControlSpec :=
  [⟨0, 1, 20, 3000⟩, ⟨250, 2, 40, 1000⟩, ⟨500, 3, 80, 2000⟩]

/-- All device commands the priority_4 scenario's actuator receives. -/
def priority4Emits : List Emit :=
  runStack [] (timeline priority4Controls)

/-! ### Settings and selection

The settings store and the device-selection logic live in the repository's
settings, inputs and commands modules, which are not among the provided
sources; they are modelled here from the specification (sections 3, 4.A,
4.H). -/

/-- Tag normalization (spec sections 3 and 4.H): trim whitespace, then
lowercase. -/
def normalizeTag (s : String) : String := s.trim.toLower

/-- Modelled from the spec: sanitize_input_string of the inputs module
normalizes each request tag (trim + lowercase, section 4.A step 3). -/
def sanitize_input_string (xs : List String) : List String :=
  xs.map normalizeTag

/-- Per-device configuration record (spec section 3, DeviceSetting). -/
structure TkDeviceSettings where
  name : String
  enabled : Bool
  events : List String
  deriving DecidableEq

/-- Connection choice of the settings schema (spec section 6). -/
inductive TkConnectionType
  | InProcess
  | WebSocket (endpoint : String)
  deriving DecidableEq

/-- Modelled from the spec: the settings schema (section 6): connection
choice, pattern directory, ordered device list. -/
structure TkSettings where
  connection : TkConnectionType
  pattern_path : String
  devices : List TkDeviceSettings
  deriving DecidableEq

/-- Modelled from the spec: default settings (in-process connection, no
known devices). -/
def TkSettings.default : TkSettings :=
  ⟨TkConnectionType.InProcess, "", []⟩

/-- Modelled from the spec: is_enabled returns the stored enabled value, or
false when the device is unknown (section 4.H). -/
def isEnabled (devices : List TkDeviceSettings) (name : String) : Bool :=
  match devices.find? fun d => d.name == name with
  | some d => d.enabled
  | none => false

/-- Modelled from the spec: set_events stores the normalized tags under the
device's (case-exact) name, updating the first matching entry, or creating
an entry when the device is unknown so that the round-trip law of section 8
holds for every device name (sections 4.H and 8). -/
def setEvents : List TkDeviceSettings → String → List String →
    List TkDeviceSettings
  | [], name, events => [⟨name, false, events.map normalizeTag⟩]
  | d :: rest, name, events =>
      if d.name == name then
        { d with events := events.map normalizeTag } :: rest
      else
        d :: setEvents rest name events

/-- Modelled from the spec: get_events returns the stored ordered tag list,
or the empty list when the device is unknown (section 4.H). -/
def getEvents (devices : List TkDeviceSettings) (name : String) :
    List String :=
  match devices.find? fun d => d.name == name with
  | some d => d.events
  | none => []

/-- Request-side device selector (spec section 3, DeviceSelector). -/
inductive TkDeviceSelector
  | All
  | ByNames (tags : List String)
  deriving DecidableEq

/-- Modelled from the spec: TkDeviceSelector::from_events of the commands
module wraps the sanitized request tags in a ByNames selector. -/
def TkDeviceSelector.from_events (events : List String)
    (_devices : List TkDeviceSettings) : TkDeviceSelector :=
  TkDeviceSelector.ByNames events

/-- Modelled from the spec: select (section 4.A) keeps the actuators of
enabled devices; under All it keeps all of them, under ByNames it keeps
those whose device's normalized tags intersect the normalized request
tags; order is preserved. -/
def selectActuators (actuators : List Actuator)
    (selector : TkDeviceSelector) (settings : List TkDeviceSettings) :
    List Actuator :=
  let enabled := actuators.filter fun a => isEnabled settings a.device.name
  match selector with
  | .All => enabled
  | .ByNames tags =>
      let ntags := tags.map normalizeTag
      enabled.filter fun a =>
        match settings.find? fun d => d.name == a.device.name with
        | some d => d.events.any fun e => ntags.contains (normalizeTag e)
        | none => false

/-- Modelled from the spec: the command worker's handling of a single
Control(handle, selector, Linear(duration, speed)) action followed by the
player's termination when the duration expires (sections 4.D and 4.E):
the worker resolves the selection per section 4.A and drives the scalar
channel of each selected Vibrate-kind actuator (section 8 scenario 1: a
vibrate command reaches only Vibrate-kind actuators), pushing on the
actuator's stack at time 0 and popping at the duration's expiry, emitting
on every reported top-of-stack change.  Returns each live actuator paired
with the device commands it receives. -/
def runLinearControl (devices : List Device)
    (settings : List TkDeviceSettings) (selector : TkDeviceSelector)
    (handle : Int) (speed : Nat) (duration : Nat) :
    List (Actuator × List Emit) :=
  let selected := (selectActuators (get_actuators devices) selector
      settings).filter fun a => a.actuator == ActuatorType.Vibrate
  (get_actuators devices).map fun a =>
    (a,
      if selected.any fun b => b.identifier == a.identifier then
        runStack [] (timeline [⟨0, handle, speed, duration⟩])
      else [])

/-- Device vib1 of the vibrate_all scenario: one scalar Vibrate channel. -/
def vib1Dev : Device := ⟨1, "vib1", some [⟨ActuatorType.Vibrate⟩], none, none⟩

/-- Device vib2 of the vibrate_all scenario: one scalar Inflate channel. -/
def vib2Dev : Device := ⟨2, "vib2", some [⟨ActuatorType.Inflate⟩], none, none⟩

/-- Settings of the vibrate_all scenario: both devices enabled, no tags. -/
def vibrateAllSettings : List TkDeviceSettings :=
  [⟨"vib1", true, []⟩, ⟨"vib2", true, []⟩]

/-! ### Control-plane facade (telekinesis.rs)

State machine embedding of the Telekinesis struct and its Tk trait
implementation.  The bounded tokio channel of capacity 256 is modelled as
a list whose try_send fails exactly when it is full; the unbounded event
channel as a list.  The TkEvent, TkConnectionStatus, Speed, TkDuration,
TkPattern and TkAction types are declared in repository modules not among
the provided sources and are modelled from the specification (sections 3,
4.D, 4.G). -/

/-- Strength 0..=100 (spec section 3). -/
structure Speed where
  value : Nat
  deriving DecidableEq

/-- Speed::new clamps to 0..=100 (spec section 3). -/
def Speed.new (v : Int) : Speed := ⟨min v.toNat 100⟩

/-- Speed::max is 100 (spec section 3). -/
def Speed.max : Speed := ⟨100⟩

/-- Duration of a control action (spec section 3). -/
inductive TkDuration
  | Infinite
  | Timed (millis : Nat)
  deriving DecidableEq

/-- Pattern of a control action (spec section 3). -/
inductive TkPattern
  | Linear (duration : TkDuration) (speed : Speed)
  | Funscript (duration : TkDuration) (name : String)
  deriving DecidableEq

/-- Parameters of a Control action (commands module; spec section 4.D). -/
structure TkParams where
  selector : TkDeviceSelector
  pattern : TkPattern
  deriving DecidableEq

/-- Control-plane actions consumed by the command worker (spec section
4.D; the Disconect spelling follows the source). -/
inductive TkAction
  | Scan
  | StopScan
  | Control (handle : Int) (params : TkParams)
  | Stop (handle : Int)
  | StopAll
  | Disconect
  deriving DecidableEq

/-- Typed events of the event plane (spec section 4.G). -/
inductive TkEvent
  | DeviceAdded (name : String)
  | DeviceRemoved (name : String)
  | ScanStarted
  | ScanStopped
  | ScanFailed (reason : String)
  | Disconnect
  | Stop
  | StopAll
  | Other (description : String)
  deriving DecidableEq

/-- Connection lifecycle status (spec section 3). -/
inductive TkConnectionStatus
  | NotConnected
  | Connected
  | Failed (message : String)
  deriving DecidableEq

/-- Two's-complement wrap of an unbounded integer into the i32 range
[-2^31, 2^31): the release-mode semantics of Rust's i32 addition, which
wraps on overflow (2147483648 = 2^31, 4294967296 = 2^32). -/
def wrap32 (n : Int) : Int :=
  (n + 2147483648) % 4294967296 - 2147483648

/-- The distinguished error handle (telekinesis.rs, ERROR_HANDLE). -/
def ERROR_HANDLE : Int := -1

/-- Capacity of the inbound action channel: channel(256) in connect_with
(telekinesis.rs). -/
def queueCapacity : Nat := 256

/-- try_send on the bounded action channel: appends when the queue holds
fewer than queueCapacity actions, fails (returning none) when full. -/
def trySend (q : List TkAction) (a : TkAction) : Option (List TkAction) :=
  if q.length < queueCapacity then some (q ++ [a]) else none

/-- Embedding of the Telekinesis struct (telekinesis.rs): the bounded
command queue, the unbounded event queue, the live device list, settings,
connection status and the handle counter.  last_handle is an i32 in the
source; it is carried here as an Int kept inside the i32 range by
applying wrap32 at every increment, the release-mode wrap-on-overflow
semantics of the source's += 1. -/
structure Telekinesis where
  command_queue : List TkAction
  event_queue : List TkEvent
  devices : List Device
  settings : TkSettings
  connection_status : TkConnectionStatus
  last_handle : Int
  deriving DecidableEq

/-- Embedding of Telekinesis::connect_with (telekinesis.rs): fresh state
with empty queues, no devices, the provided (or default) settings,
NotConnected status, and last_handle = 0. -/
def connect_with (provided_settings : Option TkSettings) : Telekinesis :=
  { command_queue := []
    event_queue := []
    devices := []
    settings := provided_settings.getD TkSettings.default
    connection_status := TkConnectionStatus.NotConnected
    last_handle := 0 }

/-- Embedding of Telekinesis::get_next_handle (telekinesis.rs):
increments last_handle in wrapping i32 arithmetic and returns it. -/
def Telekinesis.get_next_handle (tk : Telekinesis) : Int × Telekinesis :=
  (wrap32 (tk.last_handle + 1),
   { tk with last_handle := wrap32 (tk.last_handle + 1) })

/-- Embedding of Tk::scan_for_devices (telekinesis.rs): queue a Scan
action; false when submission fails. -/
def Telekinesis.scan_for_devices (tk : Telekinesis) : Bool × Telekinesis :=
  match trySend tk.command_queue TkAction.Scan with
  | some q => (true, { tk with command_queue := q })
  | none => (false, tk)

/-- Embedding of Tk::stop_scan (telekinesis.rs). -/
def Telekinesis.stop_scan (tk : Telekinesis) : Bool × Telekinesis :=
  match trySend tk.command_queue TkAction.StopScan with
  | some q => (true, { tk with command_queue := q })
  | none => (false, tk)

/-- Embedding of Tk::vibrate_pattern (telekinesis.rs): take the next
handle, queue a Control action carrying the selector built from the
sanitized request tags; ERROR_HANDLE when submission fails. -/
def Telekinesis.vibrate_pattern (tk : Telekinesis) (pattern : TkPattern)
    (events : List String) : Int × Telekinesis :=
  let r := tk.get_next_handle
  let selected := TkDeviceSelector.from_events (sanitize_input_string events)
      r.2.settings.devices
  match trySend r.2.command_queue
      (TkAction.Control r.1 ⟨selected, pattern⟩) with
  | some q => (r.1, { r.2 with command_queue := q })
  | none => (ERROR_HANDLE, r.2)

/-- Embedding of Tk::vibrate (telekinesis.rs): vibrate_pattern with a
Linear pattern. -/
def Telekinesis.vibrate (tk : Telekinesis) (speed : Speed)
    (duration : TkDuration) (events : List String) : Int × Telekinesis :=
  tk.vibrate_pattern (TkPattern.Linear duration speed) events

/-- Embedding of Tk::vibrate_all (telekinesis.rs): take the next handle,
queue a Control action with selector All; ERROR_HANDLE when submission
fails. -/
def Telekinesis.vibrate_all (tk : Telekinesis) (speed : Speed)
    (duration : TkDuration) : Int × Telekinesis :=
  let r := tk.get_next_handle
  match trySend r.2.command_queue
      (TkAction.Control r.1
        ⟨TkDeviceSelector.All, TkPattern.Linear duration speed⟩) with
  | some q => (r.1, { r.2 with command_queue := q })
  | none => (ERROR_HANDLE, r.2)

/-- Embedding of Tk::stop (telekinesis.rs). -/
def Telekinesis.stop (tk : Telekinesis) (handle : Int) :
    Bool × Telekinesis :=
  match trySend tk.command_queue (TkAction.Stop handle) with
  | some q => (true, { tk with command_queue := q })
  | none => (false, tk)

/-- Embedding of Tk::stop_all (telekinesis.rs). -/
def Telekinesis.stop_all (tk : Telekinesis) : Bool × Telekinesis :=
  match trySend tk.command_queue TkAction.StopAll with
  | some q => (true, { tk with command_queue := q })
  | none => (false, tk)

/-- Embedding of Tk::get_next_event (telekinesis.rs): pop the next event
if any; a ScanFailed event sets the status to Failed with its reason, a
ScanStarted event sets it to Connected, every other event leaves it. -/
def Telekinesis.get_next_event (tk : Telekinesis) :
    Option TkEvent × Telekinesis :=
  match tk.event_queue with
  | [] => (none, tk)
  | msg :: rest =>
      let status :=
        match msg with
        | TkEvent.ScanFailed err => TkConnectionStatus.Failed err
        | TkEvent.ScanStarted => TkConnectionStatus.Connected
        | _ => tk.connection_status
      (some msg,
       { tk with event_queue := rest, connection_status := status })

/-- Embedding of Tk::settings_set_events (telekinesis.rs), delegating to
the settings store's set_events. -/
def Telekinesis.settings_set_events (tk : Telekinesis) (device_name : String)
    (events : List String) : Telekinesis :=
  { tk with settings :=
      { tk.settings with devices := setEvents tk.settings.devices device_name events } }

/-- Embedding of Tk::settings_get_events (telekinesis.rs), delegating to
the settings store's get_events. -/
def Telekinesis.settings_get_events (tk : Telekinesis)
    (device_name : String) : List String :=
  getEvents tk.settings.devices device_name

/-! ### Transport event loop (connect_with's spawned task) -/

/-- Transport-side events as the connect_with loop consumes them, carrying
what the loop body reads: the added device, or an error/other payload. -/
inductive TransportEvent
  | DeviceAdded (device : Device)
  | ServerError (message : String)
  | Other (description : String)
  deriving DecidableEq

/-- Modelled from the spec: TkEvent::from_event translates transport
events mechanically into typed events (section 4.G). -/
def TkEvent.from_event : TransportEvent → TkEvent
  | .DeviceAdded d => TkEvent.DeviceAdded d.name
  | .ServerError m => TkEvent.Other m
  | .Other m => TkEvent.Other m

/-- Embedding of the body of connect_with's event loop (telekinesis.rs):
on DeviceAdded, push the device onto the live list unless an entry with
the same device index is already present; every event is then forwarded
to the event queue. -/
def connectLoopStep (device_list : List Device) (queue : List TkEvent)
    (event : TransportEvent) : List Device × List TkEvent :=
  let device_list2 :=
    match event with
    | .DeviceAdded device =>
        if device_list.any fun d => d.index == device.index then device_list
        else device_list ++ [device]
    | _ => device_list
  (device_list2, queue ++ [TkEvent.from_event event])

/-! ### Single-lifetime traces of the control-plane API -/

/-- One step of a system lifetime: an API call on the facade, or the
command worker consuming one queued action. -/
inductive Step
  | vibrate (speed : Speed) (duration : TkDuration) (events : List String)
  | vibratePattern (pattern : TkPattern) (events : List String)
  | vibrateAll (speed : Speed) (duration : TkDuration)
  | scanForDevices
  | stopScan
  | stop (handle : Int)
  | stopAll
  | work
  deriving DecidableEq

/-- Runs one step; the first component is the returned handle for the
three handle-returning calls, none otherwise.  A work step models the
command thread created in connect_with taking one action off the bounded
queue. -/
def runStep (tk : Telekinesis) : Step → Option Int × Telekinesis
  | .vibrate s d e => let r := tk.vibrate s d e; (some r.1, r.2)
  | .vibratePattern p e => let r := tk.vibrate_pattern p e; (some r.1, r.2)
  | .vibrateAll s d => let r := tk.vibrate_all s d; (some r.1, r.2)
  | .scanForDevices => (none, tk.scan_for_devices.2)
  | .stopScan => (none, tk.stop_scan.2)
  | .stop h => (none, (tk.stop h).2)
  | .stopAll => (none, tk.stop_all.2)
  | .work => (none, { tk with command_queue := tk.command_queue.tail })

/-- Runs a trace of steps, collecting the returned handles in order. -/
def runTrace (tk : Telekinesis) : List Step → List Int × Telekinesis
  | [] => ([], tk)
  | step :: rest =>
      let r := runStep tk step
      let rs := runTrace r.2 rest
      (r.1.toList ++ rs.1, rs.2)

/-- A device used as a counterexample input: its only channel is a scalar
Constrict channel. -/
def constrictDev : Device :=
  ⟨5, "tight1", some [⟨ActuatorType.Constrict⟩], none, none⟩

/-- A device sharing the device index 1 with vib1Dev but under another
name, used to exercise the device-list deduplication. -/
def dupIndexDev : Device := ⟨1, "vib1b", none, none, none⟩

/-- A facade state whose inbound action queue is full. -/
def fullQueueTk : Telekinesis :=
  { connect_with none with
      command_queue := List.replicate 256 TkAction.StopAll }

/-- A lifetime in which a failed submission separates two successes: one
accepted call, 255 queued stop_all submissions filling the queue, a
rejected call, one worker consumption, then another accepted call. -/
def gapTrace : List Step :=
  [Step.vibrateAll Speed.max (TkDuration.Timed 1)] ++
  List.replicate 255 Step.stopAll ++
  [Step.vibrateAll Speed.max (TkDuration.Timed 1), Step.work,
   Step.vibrateAll Speed.max (TkDuration.Timed 1)]

/-- State of the gapTrace lifetime after its first accepted call. -/
def gapStateA : Telekinesis :=
  { command_queue :=
      [TkAction.Control 1
        ⟨TkDeviceSelector.All, TkPattern.Linear (TkDuration.Timed 1) Speed.max⟩]
    event_queue := []
    devices := []
    settings := TkSettings.default
    connection_status := TkConnectionStatus.NotConnected
    last_handle := 1 }

/-- State of the gapTrace lifetime once the 255 stop_all submissions have
filled the queue. -/
def gapStateB : Telekinesis :=
  { gapStateA with
      command_queue :=
        gapStateA.command_queue ++ List.replicate 255 TkAction.StopAll }

/-- How many times a step consumes a handle from the counter: one for
each of the three control calls, zero otherwise. -/
def controlCountStep : Step → Nat
  | .vibrate _ _ _ => 1
  | .vibratePattern _ _ => 1
  | .vibrateAll _ _ => 1
  | _ => 0

/-- Number of handle-consuming control calls in a trace. -/
def controlCount : List Step → Nat
  | [] => 0
  | s :: rest => controlCountStep s + controlCount rest

/-- A lifetime of n accepted control calls: each vibrate_all submission is
immediately drained by the worker, so every submission succeeds and burns
one handle. -/
def vibrateBlocks : Nat → List Step
  | 0 => []
  | n + 1 =>
      Step.vibrateAll Speed.max (TkDuration.Timed 1) :: Step.work ::
        vibrateBlocks n

/-! ## Theorems -/

/-- Claim C1: in the priority_4 scenario (one actuator; Control actions at
t = 0, 250, 500 ms with strengths 20, 40, 80 and durations 3000, 1000,
2000 ms) the device receives exactly six emits, in order 0.2, 0.4, 0.8,
0.8, 0.2, stop: the middle entry's pop at t = 1250 happens under an
equal-valued top and still triggers an emit, giving the duplicate 0.8. -/
theorem priority_4_emit_sequence :
    priority4Emits =
      [Emit.strength 20, Emit.strength 40, Emit.strength 80,
       Emit.strength 80, Emit.strength 20, Emit.stop] ∧
    priority4Emits.map Emit.toDevice =
      [some 0.2, some 0.4, some 0.8, some 0.8, some 0.2, none] := by
  have h : priority4Emits =
      [Emit.strength 20, Emit.strength 40, Emit.strength 80,
       Emit.strength 80, Emit.strength 20, Emit.stop] := by decide
  refine ⟨h, ?_⟩
  rw [h]
  simp only [List.map, Emit.toDevice]
  norm_num

/-- Claim C2: with two enabled devices, one whose only actuator is a
scalar Vibrate channel and one whose only actuator is a scalar Inflate
channel, vibrate_all(100, 1 ms) causes exactly one strength emit (1.0)
followed by one stop emit on the Vibrate actuator and zero emits on the
Inflate actuator. -/
theorem vibrate_all_only_vibrates_vibrators :
    runLinearControl [vib1Dev, vib2Dev] vibrateAllSettings
        TkDeviceSelector.All 1 100 1 =
      [(Actuator.new vib1Dev ActuatorType.Vibrate 0,
          [Emit.strength 100, Emit.stop]),
       (Actuator.new vib2Dev ActuatorType.Inflate 0, [])] ∧
    (Emit.strength 100).toDevice = some 1 := by
  refine ⟨by decide, ?_⟩
  simp only [Emit.toDevice]
  norm_num

/-- Claim C7: get_actuators returns, per device in input order, one
Actuator per scalar channel with the channel's declared kind in index
order, then one Position actuator per linear channel in index order, then
one Rotate actuator per rotate channel in index order — the deterministic
sequence described by the spec (refinement against actuatorsSpec). -/
theorem get_actuators_matches_spec (devices : List Device) :
    get_actuators devices = actuatorsSpec devices := by
  unfold get_actuators actuatorsSpec
  congr 1
  funext device
  obtain ⟨_, _, sc, lc, rc⟩ := device
  cases sc <;> cases lc <;> cases rc <;> rfl

/-- Claim C6: get_next_event updates the connection status exactly so:
a returned ScanStarted event makes it Connected, a returned ScanFailed(e)
event makes it Failed(e) from any prior status, and any other returned
event (or no event) leaves the status unchanged. -/
theorem get_next_event_status_update (tk : Telekinesis) :
    (tk.get_next_event).2.connection_status =
      (match (tk.get_next_event).1 with
        | some TkEvent.ScanStarted => TkConnectionStatus.Connected
        | some (TkEvent.ScanFailed e) => TkConnectionStatus.Failed e
        | _ => tk.connection_status) := by
  obtain ⟨cq, eq, devs, st, cs, lh⟩ := tk
  cases eq with
  | nil => rfl
  | cons msg rest => cases msg <;> rfl

/-- Round-trip behavior of the settings store: reading back the tags just
stored under a name yields the normalized tags. -/
lemma getEvents_setEvents (devices : List TkDeviceSettings) (name : String)
    (events : List String) :
    getEvents (setEvents devices name events) name =
      events.map normalizeTag := by
  induction devices with
  | nil => simp [setEvents, getEvents]
  | cons d rest ih =>
      by_cases h : d.name = name
      · simp [setEvents, getEvents, h]
      · have hb : (d.name == name) = false := by
          simp [h]
        simp [setEvents, getEvents, hb] at ih ⊢
        exact ih

/-- Claim C8: for every device name d and tag list E, settings_set_events
(d, E) followed by settings_get_events(d) returns exactly normalize(E),
where normalize trims whitespace and lowercases each tag. -/
theorem settings_events_roundtrip (tk : Telekinesis) (d : String)
    (E : List String) :
    (tk.settings_set_events d E).settings_get_events d =
      E.map normalizeTag := by
  simp [Telekinesis.settings_set_events, Telekinesis.settings_get_events,
    getEvents_setEvents]

/-- Claim C9: a DeviceAdded transport event whose device index already
occurs in the live list leaves the list unchanged while the event is still
forwarded to the event queue, and the loop step preserves distinctness of
the stored device indices. -/
theorem device_list_dedup_by_index (device_list : List Device)
    (queue : List TkEvent) (event : TransportEvent) :
    (∀ d, event = TransportEvent.DeviceAdded d →
        (∃ e ∈ device_list, e.index = d.index) →
        (connectLoopStep device_list queue event).1 = device_list) ∧
    (connectLoopStep device_list queue event).2 =
      queue ++ [TkEvent.from_event event] ∧
    ((device_list.map Device.index).Nodup →
      (((connectLoopStep device_list queue event).1).map Device.index).Nodup) := by
  refine ⟨?_, ?_, ?_⟩
  · rintro d rfl ⟨e, he, hidx⟩
    have hany : (device_list.any fun x => x.index == d.index) = true := by
      simp only [List.any_eq_true]
      exact ⟨e, he, by simp [hidx]⟩
    simp [connectLoopStep, hany]
  · cases event <;> rfl
  · intro hnd
    cases event with
    | DeviceAdded d =>
        by_cases hany : (device_list.any fun x => x.index == d.index) = true
        · simpa [connectLoopStep, hany] using hnd
        · have hnotin : d.index ∉ device_list.map Device.index := by
            intro hmem
            obtain ⟨e, he, hidx⟩ := List.mem_map.mp hmem
            exact hany (List.any_eq_true.mpr ⟨e, he, by simp [hidx]⟩)
          simp [connectLoopStep, hany, List.nodup_append, hnd, hnotin]
    | ServerError m => simpa [connectLoopStep] using hnd
    | Other m => simpa [connectLoopStep] using hnd

/-- Concrete instance of claim C9: adding a device whose index 1 is
already held by vib1Dev leaves the list unchanged, forwards the event,
and keeps the indices distinct. -/
theorem device_list_dedup_by_index_witness :
    (connectLoopStep [vib1Dev] [] (TransportEvent.DeviceAdded dupIndexDev)).1 =
      [vib1Dev] ∧
    (connectLoopStep [vib1Dev] [] (TransportEvent.DeviceAdded dupIndexDev)).2 =
      [] ++ [TkEvent.from_event (TransportEvent.DeviceAdded dupIndexDev)] ∧
    (((connectLoopStep [vib1Dev] []
        (TransportEvent.DeviceAdded dupIndexDev)).1).map Device.index).Nodup := by
  obtain ⟨h1, h2, h3⟩ :=
    device_list_dedup_by_index [vib1Dev] []
      (TransportEvent.DeviceAdded dupIndexDev)
  exact ⟨h1 dupIndexDev rfl ⟨vib1Dev, by simp, by decide⟩, h2,
    h3 (by decide)⟩

/-- Counterexample to claim C3: a live device whose only channel is a
scalar Constrict channel yields an empty capability list, not the union
of its actuator kinds — get_device_capabilities disagrees with the union
reading at this input. -/
theorem get_device_capabilities_union_counterexample :
    get_device_capabilities [constrictDev] "tight1" = [] ∧
    capabilitiesSpec [constrictDev] "tight1" = ["Constrict"] ∧
    get_device_capabilities [constrictDev] "tight1" ≠
      capabilitiesSpec [constrictDev] "tight1" := by
  refine ⟨by decide, by decide, by decide⟩

/-- Claim C3 as amended: get_device_capabilities(name) returns exactly
["Vibrate"] when some live device reporting that name has a scalar channel
of kind Vibrate and the empty list otherwise; no kind other than Vibrate
is ever reported, even when backed by a live actuator. -/
theorem get_device_capabilities_vibrate_only (devices : List Device)
    (name : String) :
    get_device_capabilities devices name =
      (if ∃ d ∈ devices, d.name = name ∧ d.hasScalarVibrate = true
       then [ActuatorType.Vibrate.str] else []) ∧
    ∀ k ∈ get_device_capabilities devices name,
      k = ActuatorType.Vibrate.str := by
  have hiff : (devices.any fun d => d.name == name && d.hasScalarVibrate)
      = true ↔ (∃ d ∈ devices, d.name = name ∧ d.hasScalarVibrate = true) := by
    simp [List.any_eq_true, Bool.and_eq_true]
  constructor
  · unfold get_device_capabilities
    by_cases h : (devices.any fun d => d.name == name && d.hasScalarVibrate)
        = true
    · rw [if_pos h, if_pos (hiff.mp h)]
    · rw [if_neg h, if_neg fun hp => h (hiff.mpr hp)]
  · intro k hk
    unfold get_device_capabilities at hk
    split at hk
    · simpa using hk
    · simp at hk

/-- An integer already inside the i32 range is left unchanged by the
wrap. -/
lemma wrap32_eq_self {x : Int} (h1 : -2147483648 ≤ x)
    (h2 : x < 2147483648) : wrap32 x = x := by
  unfold wrap32
  omega

/-- Wrapping composes: a wrapped summand can be unwrapped under an outer
wrap. -/
lemma wrap32_wrap_add (a b : Int) : wrap32 (wrap32 a + b) = wrap32 (a + b) := by
  unfold wrap32
  omega

/-- Per-step handle accounting below the wrap boundary: while the counter
stays non-negative and cannot reach i32::MAX within the step, the counter
advances by exactly the step's control count, and a returned handle is
either the error handle or a fresh value above the prior counter and not
above the new counter. -/
lemma runStep_handle_spec (tk : Telekinesis) (s : Step)
    (h0 : 0 ≤ tk.last_handle)
    (hb : tk.last_handle + (controlCountStep s : Int) ≤ 2147483647) :
    (runStep tk s).2.last_handle =
      tk.last_handle + (controlCountStep s : Int) ∧
    ∀ r ∈ (runStep tk s).1.toList,
      r = ERROR_HANDLE ∨
        (tk.last_handle < r ∧ r ≤ (runStep tk s).2.last_handle) := by
  cases s with
  | vibrate sp d e =>
      have hw : wrap32 (tk.last_handle + 1) = tk.last_handle + 1 := by
        have hb1 : tk.last_handle + 1 ≤ 2147483647 := by
          simpa [controlCountStep] using hb
        exact wrap32_eq_self (by omega) (by omega)
      simp only [runStep, Telekinesis.vibrate, Telekinesis.vibrate_pattern,
        Telekinesis.get_next_handle, hw, controlCountStep]
      split <;> simp
  | vibratePattern p e =>
      have hw : wrap32 (tk.last_handle + 1) = tk.last_handle + 1 := by
        have hb1 : tk.last_handle + 1 ≤ 2147483647 := by
          simpa [controlCountStep] using hb
        exact wrap32_eq_self (by omega) (by omega)
      simp only [runStep, Telekinesis.vibrate_pattern,
        Telekinesis.get_next_handle, hw, controlCountStep]
      split <;> simp
  | vibrateAll sp d =>
      have hw : wrap32 (tk.last_handle + 1) = tk.last_handle + 1 := by
        have hb1 : tk.last_handle + 1 ≤ 2147483647 := by
          simpa [controlCountStep] using hb
        exact wrap32_eq_self (by omega) (by omega)
      simp only [runStep, Telekinesis.vibrate_all,
        Telekinesis.get_next_handle, hw, controlCountStep]
      split <;> simp
  | scanForDevices =>
      simp only [runStep, Telekinesis.scan_for_devices, controlCountStep]
      split <;> simp
  | stopScan =>
      simp only [runStep, Telekinesis.stop_scan, controlCountStep]
      split <;> simp
  | stop h =>
      simp only [runStep, Telekinesis.stop, controlCountStep]
      split <;> simp
  | stopAll =>
      simp only [runStep, Telekinesis.stop_all, controlCountStep]
      split <;> simp
  | work => simp [runStep, controlCountStep]

/-- Unfolding of runTrace on a cons trace. -/
lemma runTrace_cons (tk : Telekinesis) (step : Step) (rest : List Step) :
    runTrace tk (step :: rest) =
      ((runStep tk step).1.toList ++ (runTrace (runStep tk step).2 rest).1,
       (runTrace (runStep tk step).2 rest).2) := rfl

/-- Trace-level handle accounting below the wrap boundary: while the
counter starts non-negative and the trace's control calls cannot push it
past i32::MAX, the counter advances by exactly the trace's control count,
every returned handle is the error handle or lies strictly between the
starting counter and the final counter, and the successful handles are
pairwise strictly increasing. -/
lemma runTrace_handle_spec (trace : List Step) :
    ∀ tk : Telekinesis, 0 ≤ tk.last_handle →
      tk.last_handle + (controlCount trace : Int) ≤ 2147483647 →
      (runTrace tk trace).2.last_handle =
        tk.last_handle + (controlCount trace : Int) ∧
      (∀ r ∈ (runTrace tk trace).1,
        r = ERROR_HANDLE ∨
          (tk.last_handle < r ∧ r ≤ (runTrace tk trace).2.last_handle)) ∧
      List.Pairwise (fun a b => a < b)
        ((runTrace tk trace).1.filter fun r => r != ERROR_HANDLE) := by
  induction trace with
  | nil => intro tk h0 hb; simp [runTrace, controlCount]
  | cons step rest ih =>
      intro tk h0 hb
      have hbcast : tk.last_handle + (controlCountStep step : Int) +
          (controlCount rest : Int) ≤ 2147483647 := by
        have := hb
        simp only [controlCount] at this
        push_cast at this
        omega
      have hbs : tk.last_handle + (controlCountStep step : Int) ≤ 2147483647 := by
        have hc : (0:Int) ≤ (controlCount rest : Int) := Int.ofNat_nonneg _
        omega
      obtain ⟨h1, h2⟩ := runStep_handle_spec tk step h0 hbs
      have h0' : 0 ≤ (runStep tk step).2.last_handle := by
        have hc : (0:Int) ≤ (controlCountStep step : Int) := Int.ofNat_nonneg _
        omega
      have hb' : (runStep tk step).2.last_handle +
          (controlCount rest : Int) ≤ 2147483647 := by
        rw [h1]
        omega
      obtain ⟨ih1, ih2, ih3⟩ := ih (runStep tk step).2 h0' hb'
      have hmono : (runStep tk step).2.last_handle ≤
          (runTrace (runStep tk step).2 rest).2.last_handle := by
        have hc : (0:Int) ≤ (controlCount rest : Int) := Int.ofNat_nonneg _
        omega
      have hstep_ge : tk.last_handle ≤ (runStep tk step).2.last_handle := by
        have hc : (0:Int) ≤ (controlCountStep step : Int) := Int.ofNat_nonneg _
        omega
      rw [runTrace_cons]
      refine ⟨?_, ?_, ?_⟩
      · rw [ih1, h1]
        simp only [controlCount]
        push_cast
        ring
      · intro r hr
        rcases List.mem_append.mp hr with hr | hr
        · rcases h2 r hr with h | ⟨ha, hc⟩
          · exact Or.inl h
          · exact Or.inr ⟨ha, le_trans hc hmono⟩
        · rcases ih2 r hr with h | ⟨ha, hc⟩
          · exact Or.inl h
          · exact Or.inr ⟨lt_of_le_of_lt hstep_ge ha, hc⟩
      · rw [List.filter_append]
        rw [List.pairwise_append]
        refine ⟨?_, ih3, ?_⟩
        · cases hs : (runStep tk step).1 with
          | none => simp
          | some r =>
              cases hr : (r != ERROR_HANDLE) <;>
                simp [Option.toList, List.filter, hr]
        · intro a ha b hb2
          have ha2 := (List.mem_filter.mp ha).1
          have haf : (a != ERROR_HANDLE) = true := (List.mem_filter.mp ha).2
          have hb3 := (List.mem_filter.mp hb2).1
          have hbf : (b != ERROR_HANDLE) = true := (List.mem_filter.mp hb2).2
          rcases h2 a ha2 with h | ⟨_, hale⟩
          · simp [h] at haf
          · rcases ih2 b hb3 with h | ⟨hblt, _⟩
            · simp [h] at hbf
            · exact lt_of_le_of_lt hale hblt

/-- Closed form of an accept-and-drain lifetime: each vibrate_all
submission finds an empty queue (the worker drains it right away), so all
n calls are accepted and return the successive wrapped counter values. -/
lemma runTrace_vibrateBlocks (n : Nat) :
    ∀ (m : Int) (tk : Telekinesis),
      tk.command_queue = [] →
      tk.last_handle = wrap32 m →
      (runTrace tk (vibrateBlocks n)).1 =
        (List.range n).map (fun k : Nat => wrap32 (m + (k : Int) + 1)) ∧
      (runTrace tk (vibrateBlocks n)).2.command_queue = [] ∧
      (runTrace tk (vibrateBlocks n)).2.last_handle = wrap32 (m + n) := by
  induction n with
  | zero =>
      intro m tk hq hl
      simp [vibrateBlocks, runTrace, hq, hl]
  | succ n ih =>
      intro m tk hq hl
      have hstep1 : runStep tk (Step.vibrateAll Speed.max (TkDuration.Timed 1)) =
          (some (wrap32 (m + 1)),
           { tk with
              command_queue := [TkAction.Control (wrap32 (m + 1))
                ⟨TkDeviceSelector.All,
                 TkPattern.Linear (TkDuration.Timed 1) Speed.max⟩],
              last_handle := wrap32 (m + 1) }) := by
        simp [runStep, Telekinesis.vibrate_all, Telekinesis.get_next_handle,
          trySend, hq, hl, wrap32_wrap_add, queueCapacity]
      have hstep2 : runStep
          ({ tk with
              command_queue := [TkAction.Control (wrap32 (m + 1))
                ⟨TkDeviceSelector.All,
                 TkPattern.Linear (TkDuration.Timed 1) Speed.max⟩],
              last_handle := wrap32 (m + 1) }) Step.work =
          (none,
           { tk with
              command_queue := ([] : List TkAction)
              last_handle := wrap32 (m + 1) }) := by
        simp [runStep]
      have hrun : runTrace tk (vibrateBlocks (n + 1)) =
          (wrap32 (m + 1) ::
            (runTrace
              { tk with
                 command_queue := ([] : List TkAction)
                 last_handle := wrap32 (m + 1) } (vibrateBlocks n)).1,
           (runTrace
              { tk with
                 command_queue := ([] : List TkAction)
                 last_handle := wrap32 (m + 1) } (vibrateBlocks n)).2) := by
        show runTrace tk
            (Step.vibrateAll Speed.max (TkDuration.Timed 1) :: Step.work ::
              vibrateBlocks n) = _
        rw [runTrace_cons, hstep1, runTrace_cons, hstep2]
        rfl
      obtain ⟨ih1, ih2, ih3⟩ := ih (m + 1)
        { tk with
           command_queue := ([] : List TkAction)
           last_handle := wrap32 (m + 1) } rfl rfl
      refine ⟨?_, ?_, ?_⟩
      · rw [hrun]
        show wrap32 (m + 1) :: _ = _
        rw [ih1, List.range_succ_eq_map, List.map_cons, List.map_map]
        congr 1
        · congr 1
          push_cast
          ring
        · congr 1
          funext k
          simp only [Function.comp_apply]
          congr 1
          push_cast
          ring
      · rw [hrun]
        exact ih2
      · rw [hrun]
        show (runTrace _ (vibrateBlocks n)).2.last_handle = _
        rw [ih3]
        congr 1
        push_cast
        ring

/-- Claim C4 as amended: across a single system lifetime of fewer than
2^31 control calls — so the i32 handle counter never wraps — every
handle returned by a control call is the error handle -1 or a positive
(hence non-negative) integer, and the handles of successful calls are
pairwise strictly increasing: strictly monotone in call order and never
reused, with -1 only signalling a failed submission. -/
theorem handles_monotone_nonneg (provided : Option TkSettings)
    (trace : List Step) (hbound : controlCount trace ≤ 2147483647) :
    (∀ r ∈ (runTrace (connect_with provided) trace).1,
        r = ERROR_HANDLE ∨ 1 ≤ r) ∧
    List.Pairwise (fun a b => a < b)
      ((runTrace (connect_with provided) trace).1.filter
        fun r => r != ERROR_HANDLE) := by
  have h0 : (connect_with provided).last_handle = 0 := rfl
  obtain ⟨-, h2, h3⟩ := runTrace_handle_spec trace (connect_with provided)
    (by rw [h0]) (by rw [h0]; omega)
  refine ⟨?_, h3⟩
  intro r hr
  rcases h2 r hr with h | ⟨hlt, -⟩
  · exact Or.inl h
  · refine Or.inr ?_
    rw [h0] at hlt
    omega

/-- Concrete instance of the amended claim C4: a one-call lifetime is far
below the wrap bound, its only returned handle is 1, and the success list
is trivially increasing. -/
theorem handles_monotone_nonneg_witness :
    controlCount [Step.vibrateAll Speed.max (TkDuration.Timed 1)] ≤
      2147483647 ∧
    ((∀ r ∈ (runTrace (connect_with none)
        [Step.vibrateAll Speed.max (TkDuration.Timed 1)]).1,
        r = ERROR_HANDLE ∨ 1 ≤ r) ∧
     List.Pairwise (fun a b => a < b)
       ((runTrace (connect_with none)
          [Step.vibrateAll Speed.max (TkDuration.Timed 1)]).1.filter
         fun r => r != ERROR_HANDLE)) :=
  ⟨by decide, handles_monotone_nonneg none
    [Step.vibrateAll Speed.max (TkDuration.Timed 1)] (by decide)⟩

/-- Counterexample to claim C4 as stated: in the lifetime of 2^31
accepted control calls (each drained by the worker before the next) the
i32 handle counter wraps, and an accepted call returns the negative
handle -2^31, which is neither the error handle nor non-negative. -/
theorem handles_wrap_counterexample :
    (-2147483648 : Int) ∈
      (runTrace (connect_with none) (vibrateBlocks 2147483648)).1 ∧
    (-2147483648 : Int) ≠ ERROR_HANDLE ∧
    ¬ (∀ r ∈ (runTrace (connect_with none) (vibrateBlocks 2147483648)).1,
        r = ERROR_HANDLE ∨ 0 ≤ r) := by
  have hl : (connect_with none).last_handle = wrap32 0 := by decide
  obtain ⟨h1, -, -⟩ :=
    runTrace_vibrateBlocks 2147483648 0 (connect_with none) rfl hl
  have hmem : (-2147483648 : Int) ∈
      (runTrace (connect_with none) (vibrateBlocks 2147483648)).1 := by
    rw [h1]
    exact List.mem_map.mpr
      ⟨2147483647, List.mem_range.mpr (by norm_num), by decide⟩
  refine ⟨hmem, by decide, fun hall => ?_⟩
  rcases hall _ hmem with h | h
  · exact absurd h (by decide)
  · omega

/-- Claim C5: the inbound action queue has capacity exactly 256, and when
it is full every submitting operation fails — scan_for_devices,
stop_scan, stop and stop_all return false leaving the state untouched,
and vibrate, vibrate_pattern and vibrate_all return the error handle -1 —
and no event is emitted for the failed submission (the event queue is
unchanged). -/
theorem queue_full_submission_fails (tk : Telekinesis)
    (h : queueCapacity ≤ tk.command_queue.length) :
    queueCapacity = 256 ∧
    tk.scan_for_devices = (false, tk) ∧
    tk.stop_scan = (false, tk) ∧
    (∀ hd : Int, tk.stop hd = (false, tk)) ∧
    tk.stop_all = (false, tk) ∧
    (∀ s d e, (tk.vibrate s d e).1 = ERROR_HANDLE ∧
        ((tk.vibrate s d e).2).event_queue = tk.event_queue) ∧
    (∀ p e, (tk.vibrate_pattern p e).1 = ERROR_HANDLE ∧
        ((tk.vibrate_pattern p e).2).event_queue = tk.event_queue) ∧
    (∀ s d, (tk.vibrate_all s d).1 = ERROR_HANDLE ∧
        ((tk.vibrate_all s d).2).event_queue = tk.event_queue) := by
  have hfail : ∀ a, trySend tk.command_queue a = none := by
    intro a
    simp [trySend, Nat.not_lt.mpr h]
  refine ⟨rfl, ?_, ?_, ?_, ?_, ?_, ?_, ?_⟩
  · simp [Telekinesis.scan_for_devices, hfail]
  · simp [Telekinesis.stop_scan, hfail]
  · intro hd; simp [Telekinesis.stop, hfail]
  · simp [Telekinesis.stop_all, hfail]
  · intro s d e
    simp [Telekinesis.vibrate, Telekinesis.vibrate_pattern,
      Telekinesis.get_next_handle, hfail]
  · intro p e
    simp [Telekinesis.vibrate_pattern, Telekinesis.get_next_handle, hfail]
  · intro s d
    simp [Telekinesis.vibrate_all, Telekinesis.get_next_handle, hfail]

/-- Concrete instance of claim C5: on a state whose queue holds 256
actions, scan submission returns false without touching the state and
vibrate returns the error handle. -/
theorem queue_full_submission_fails_witness :
    queueCapacity ≤ fullQueueTk.command_queue.length ∧
    fullQueueTk.scan_for_devices = (false, fullQueueTk) ∧
    (fullQueueTk.vibrate Speed.max (TkDuration.Timed 1) []).1 =
      ERROR_HANDLE := by
  have hlen : queueCapacity ≤ fullQueueTk.command_queue.length := by
    show queueCapacity ≤ (List.replicate 256 TkAction.StopAll).length
    rw [List.length_replicate]
    decide
  exact ⟨hlen, (queue_full_submission_fails fullQueueTk hlen).2.1,
    ((queue_full_submission_fails fullQueueTk hlen).2.2.2.2.2.1
      Speed.max (TkDuration.Timed 1) []).1⟩

/-- Composition of runTrace over concatenated traces. -/
lemma runTrace_append (l1 l2 : List Step) :
    ∀ tk : Telekinesis,
      runTrace tk (l1 ++ l2) =
        ((runTrace tk l1).1 ++ (runTrace (runTrace tk l1).2 l2).1,
         (runTrace (runTrace tk l1).2 l2).2) := by
  induction l1 with
  | nil => intro tk; simp [runTrace]
  | cons s rest ih =>
      intro tk
      simp [runTrace_cons, ih, List.append_assoc]

/-- Closed form of a run of stop_all submissions that fit in the queue:
no handles are returned and the actions pile up at the queue's end. -/
lemma runTrace_replicate_stopAll (n : Nat) :
    ∀ tk : Telekinesis,
      tk.command_queue.length + n ≤ queueCapacity →
      runTrace tk (List.replicate n Step.stopAll) =
        ([], { tk with command_queue :=
            tk.command_queue ++ List.replicate n TkAction.StopAll }) := by
  induction n with
  | zero => intro tk h; simp [runTrace]
  | succ n ih =>
      intro tk h
      have hlt : tk.command_queue.length < queueCapacity := by omega
      have hstep : runStep tk Step.stopAll =
          (none, { tk with command_queue :=
              tk.command_queue ++ [TkAction.StopAll] }) := by
        simp [runStep, Telekinesis.stop_all, trySend, hlt]
      rw [List.replicate_succ, runTrace_cons, hstep]
      rw [ih _ (by simp; omega)]
      simp [List.replicate_succ, List.append_assoc]

set_option maxRecDepth 8000 in
/-- The handle results of the gapTrace lifetime: an accepted handle 1, the
rejected submission's -1, then the accepted handle 3. -/
lemma gapTrace_results :
    (runTrace (connect_with none) gapTrace).1 = [1, ERROR_HANDLE, 3] := by
  have hA : runTrace (connect_with none)
      [Step.vibrateAll Speed.max (TkDuration.Timed 1)] = ([1], gapStateA) := by
    decide
  have hB : runTrace gapStateA (List.replicate 255 Step.stopAll) =
      ([], gapStateB) := by
    rw [runTrace_replicate_stopAll 255 gapStateA (by decide)]
    rfl
  have h1 : runTrace (connect_with none)
      ([Step.vibrateAll Speed.max (TkDuration.Timed 1)] ++
        List.replicate 255 Step.stopAll) = ([1], gapStateB) := by
    rw [runTrace_append, hA]
    simp only [hB, List.append_nil]
  have h2 : (runTrace gapStateB
      [Step.vibrateAll Speed.max (TkDuration.Timed 1), Step.work,
       Step.vibrateAll Speed.max (TkDuration.Timed 1)]).1 =
      [ERROR_HANDLE, 3] := by
    decide
  unfold gapTrace
  rw [runTrace_append, h1]
  simp only [h2]
  rfl

/-- Claim C10 as amended: every vibrate, vibrate_pattern and vibrate_all
call advances the handle counter by exactly one step of wrapping i32
arithmetic — exactly +1 whenever the counter is below i32::MAX — even
when submission fails and -1 is returned; consequently successful handles
need not be consecutive: in the concrete gapTrace lifetime the returned
handles are 1, -1, 3, so the successes 1 and 3 straddle the handle burnt
by the failure. -/
theorem handle_counter_increments_on_failure :
    (∀ (tk : Telekinesis) (s : Speed) (d : TkDuration) (e : List String),
        ((tk.vibrate s d e).2).last_handle = wrap32 (tk.last_handle + 1)) ∧
    (∀ (tk : Telekinesis) (p : TkPattern) (e : List String),
        ((tk.vibrate_pattern p e).2).last_handle =
          wrap32 (tk.last_handle + 1)) ∧
    (∀ (tk : Telekinesis) (s : Speed) (d : TkDuration),
        ((tk.vibrate_all s d).2).last_handle = wrap32 (tk.last_handle + 1)) ∧
    (∀ tk : Telekinesis,
        -2147483648 ≤ tk.last_handle → tk.last_handle < 2147483647 →
        (∀ (s : Speed) (d : TkDuration) (e : List String),
            ((tk.vibrate s d e).2).last_handle = tk.last_handle + 1) ∧
        (∀ (p : TkPattern) (e : List String),
            ((tk.vibrate_pattern p e).2).last_handle = tk.last_handle + 1) ∧
        (∀ (s : Speed) (d : TkDuration),
            ((tk.vibrate_all s d).2).last_handle = tk.last_handle + 1)) ∧
    (runTrace (connect_with none) gapTrace).1 = [1, ERROR_HANDLE, 3] ∧
    (runTrace (connect_with none) gapTrace).1.filter
      (fun r => r != ERROR_HANDLE) = [1, 3] := by
  have hv : ∀ (tk : Telekinesis) (s : Speed) (d : TkDuration)
      (e : List String),
      ((tk.vibrate s d e).2).last_handle = wrap32 (tk.last_handle + 1) := by
    intro tk s d e
    simp only [Telekinesis.vibrate, Telekinesis.vibrate_pattern,
      Telekinesis.get_next_handle]
    split <;> rfl
  have hvp : ∀ (tk : Telekinesis) (p : TkPattern) (e : List String),
      ((tk.vibrate_pattern p e).2).last_handle =
        wrap32 (tk.last_handle + 1) := by
    intro tk p e
    simp only [Telekinesis.vibrate_pattern, Telekinesis.get_next_handle]
    split <;> rfl
  have hva : ∀ (tk : Telekinesis) (s : Speed) (d : TkDuration),
      ((tk.vibrate_all s d).2).last_handle = wrap32 (tk.last_handle + 1) := by
    intro tk s d
    simp only [Telekinesis.vibrate_all, Telekinesis.get_next_handle]
    split <;> rfl
  refine ⟨hv, hvp, hva, ?_, gapTrace_results,
    by rw [gapTrace_results]; decide⟩
  intro tk hge hlt
  have hw : wrap32 (tk.last_handle + 1) = tk.last_handle + 1 :=
    wrap32_eq_self (by omega) (by omega)
  exact ⟨fun s d e => by rw [hv tk s d e, hw],
    fun p e => by rw [hvp tk p e, hw],
    fun s d => by rw [hva tk s d, hw]⟩

/-- Concrete instance of the amended claim C10: on the fresh state the
counter is far below i32::MAX, and one vibrate_all call advances it from
0 to exactly 1. -/
theorem handle_counter_increments_on_failure_witness :
    ((((connect_with none).vibrate_all Speed.max
        (TkDuration.Timed 1)).2).last_handle =
      wrap32 ((connect_with none).last_handle + 1)) ∧
    (-2147483648 ≤ (connect_with none).last_handle) ∧
    ((connect_with none).last_handle < 2147483647) ∧
    ((((connect_with none).vibrate_all Speed.max
        (TkDuration.Timed 1)).2).last_handle =
      (connect_with none).last_handle + 1) :=
  ⟨handle_counter_increments_on_failure.2.2.1 (connect_with none)
      Speed.max (TkDuration.Timed 1),
   by decide, by decide,
   (handle_counter_increments_on_failure.2.2.2.1 (connect_with none)
      (by decide) (by decide)).2.2 Speed.max (TkDuration.Timed 1)⟩

/-- Counterexample to claim C10 as stated: after 2^31 - 1 accepted
control calls the counter holds i32::MAX = 2147483647, and the next
vibrate_all call sets it to -2147483648 rather than incrementing it by
one — the i32 counter wraps instead. -/
theorem handle_counter_wrap_counterexample :
    (runTrace (connect_with none) (vibrateBlocks 2147483647)).2.last_handle =
      2147483647 ∧
    ((((runTrace (connect_with none)
          (vibrateBlocks 2147483647)).2).vibrate_all Speed.max
        (TkDuration.Timed 1)).2).last_handle = -2147483648 ∧
    (-2147483648 : Int) ≠ 2147483647 + 1 := by
  have hl : (connect_with none).last_handle = wrap32 0 := by decide
  obtain ⟨-, -, h3⟩ :=
    runTrace_vibrateBlocks 2147483647 0 (connect_with none) rfl hl
  have hmax : (runTrace (connect_with none)
      (vibrateBlocks 2147483647)).2.last_handle = 2147483647 := by
    rw [h3]
    decide
  have hstep : ∀ tk : Telekinesis,
      ((tk.vibrate_all Speed.max (TkDuration.Timed 1)).2).last_handle =
        wrap32 (tk.last_handle + 1) := by
    intro tk
    simp only [Telekinesis.vibrate_all, Telekinesis.get_next_handle]
    split <;> rfl
  refine ⟨hmax, ?_, by decide⟩
  rw [hstep, hmax]
  decide

end Telek
